import Mathlib

/-!
Verification of the reward-and-state transition core of the TELEBOT-18
repository (src/server/bot.ts), shallowly embedded in Lean 4.

Conventions of the embedding:
* JS numbers that hold coin amounts, costs and counters become `Int`
  (they stay far below 2^53, so no overflow modelling is needed).
* Timestamps (`Date`) become `Int` milliseconds since the Unix epoch.
  The server locale is assumed to be UTC (the deployment described in the
  repository runs on Railway containers, which use UTC), so the
  `getFullYear/getMonth/getDate` truncation performed by
  `canClaimDailyReward` is truncation of the shifted timestamp to a whole
  UTC day, i.e. floor division by 86400000 ms.
* Nullable fields become `Option`; JS falsiness of the empty string on the
  nullable text fields is folded into `none`.
* The storage layer (`server/storage.ts`) is not part of the provided
  sources; every function of it that the bot calls is modelled from the
  spec's storage-interface section and marked `Modelled from the spec:` in
  its doc comment.  `bot.ts` itself is translated literally.
-/

namespace Telebot

/-- Transaction type tags used by bot.ts when it calls
`storage.createTransaction` / `storage.awardReward`. -/
inductive TxnType where
  | daily_reward
  | referral
  | raffle_entry
  | shop_purchase
deriving DecidableEq, Repr

/-- A row of the `users` table, with the fields bot.ts reads or writes. -/
structure User where
  id : Nat
  telegramId : String
  username : Option String
  firstName : Option String
  lastName : Option String
  referralCode : String
  referredBy : Option String
  coins : Int
  streak : Int
  lastDailyReward : Option Int
  isActive : Bool
deriving DecidableEq, Repr

/-- A row of the `transactions` table. -/
structure Transaction where
  userId : Nat
  txType : TxnType
  amount : Int
  description : String
deriving DecidableEq, Repr

/-- A row of the `raffles` table. -/
structure Raffle where
  id : Nat
  title : String
  prizeDescription : String
  entryCost : Int
  currentEntries : Int
  maxEntries : Option Int
  endDate : Int
  isActive : Bool
deriving DecidableEq, Repr

/-- A row of the `raffleEntries` table. -/
structure RaffleEntry where
  raffleId : Nat
  userId : Nat
  entries : Int
deriving DecidableEq, Repr

/-- A row of the `shopItems` table. -/
structure ShopItem where
  id : Nat
  name : String
  itemDescription : Option String
  cost : Int
  stock : Option Int
  isActive : Bool
deriving DecidableEq, Repr

/-- A row of the `purchases` table. -/
structure Purchase where
  userId : Nat
  itemId : Nat
  quantity : Int
  totalCost : Int
  status : String
deriving DecidableEq, Repr

/-- The relational state behind the storage interface. -/
structure Storage where
  users : List User
  transactions : List Transaction
  raffles : List Raffle
  shopItems : List ShopItem
  raffleEntries : List RaffleEntry
  purchases : List Purchase
deriving DecidableEq, Repr

/-- The empty database. -/
def initialStorage : Storage := ⟨[], [], [], [], [], []⟩

/-- Modelled from the spec: `storage.getUserByTelegramId` ("get user by
external identifier"); `server/storage.ts` is absent from the sources. -/
def getUserByTelegramId (st : Storage) (tid : String) : Option User :=
  st.users.find? (fun u => u.telegramId == tid)

/-- Modelled from the spec: `storage.getUserByReferralCode` ("get user by
referral code"). -/
def getUserByReferralCode (st : Storage) (code : String) : Option User :=
  st.users.find? (fun u => u.referralCode == code)

/-- Modelled from the spec: `storage.updateUser` ("update user by external
identifier").  bot.ts always passes a partial record; each call site below
passes the corresponding field update as `f`. -/
def updateUser (st : Storage) (tid : String) (f : User → User) : Storage :=
  { st with users := st.users.map (fun u => if u.telegramId == tid then f u else u) }

/-- Modelled from the spec: `storage.createUser`.  The storage layer assigns
the fresh primary key; row order in the list model is immaterial because
keys are unique. -/
def createUser (st : Storage) (u : User) : Storage :=
  { st with users := u :: st.users }

/-- Fresh primary key for `createUser`: one more than the largest id in use. -/
def freshUserId (st : Storage) : Nat :=
  (st.users.map (fun u => u.id)).foldr max 0 + 1

/-- Modelled from the spec: `storage.createTransaction` (append-only log). -/
def createTransaction (st : Storage) (t : Transaction) : Storage :=
  { st with transactions := t :: st.transactions }

/-- Modelled from the spec: `storage.createPurchase`. -/
def createPurchase (st : Storage) (p : Purchase) : Storage :=
  { st with purchases := p :: st.purchases }

/-- Modelled from the spec: `storage.enterRaffle` ("create raffle entry"). -/
def enterRaffle (st : Storage) (e : RaffleEntry) : Storage :=
  { st with raffleEntries := e :: st.raffleEntries }

/-- Modelled from the spec: `storage.updateRaffle` ("update raffle mutable
counters"). -/
def updateRaffle (st : Storage) (rid : Nat) (f : Raffle → Raffle) : Storage :=
  { st with raffles := st.raffles.map (fun r => if r.id == rid then f r else r) }

/-- Modelled from the spec: `storage.updateShopItem`. -/
def updateShopItem (st : Storage) (iid : Nat) (f : ShopItem → ShopItem) : Storage :=
  { st with shopItems := st.shopItems.map (fun i => if i.id == iid then f i else i) }

/-- Modelled from the spec: `storage.getActiveRaffles` ("list active
raffles"). -/
def getActiveRaffles (st : Storage) : List Raffle :=
  st.raffles.filter (fun r => r.isActive)

/-- Modelled from the spec: `storage.getActiveShopItems` ("list active
shop items"). -/
def getActiveShopItems (st : Storage) : List ShopItem :=
  st.shopItems.filter (fun i => i.isActive)

/-- Modelled from the spec: `storage.getRaffleById` ("get raffle by id"). -/
def getRaffleById (st : Storage) (rid : Nat) : Option Raffle :=
  st.raffles.find? (fun r => r.id == rid)

/-- Modelled from the spec: `storage.getAllShopItems`; bot.ts then selects
the item with `items.find(i => i.id === itemId)`. -/
def getAllShopItems (st : Storage) : List ShopItem :=
  st.shopItems

/-- Modelled from the spec: `storage.getActiveUsers` ("list active users,
for broadcast"). -/
def getActiveUsers (st : Storage) : List User :=
  st.users.filter (fun u => u.isActive)

/-- Modelled from the spec: `storage.awardReward(telegramId, amount, type,
description)` credits the user the given amount and appends a Transaction
of that type whose signed amount is the credit (spec section 4.1: "credits
both referrer and referee the configured referral amount, each as its own
Transaction").  A missing user leaves the store unchanged. -/
def awardReward (st : Storage) (tid : String) (amount : Int) (ty : TxnType)
    (desc : String) : Storage :=
  match getUserByTelegramId st tid with
  | none => st
  | some u =>
      createTransaction
        (updateUser st tid (fun v => { v with coins := v.coins + amount }))
        { userId := u.id, txType := ty, amount := amount, description := desc }

/-! ### Date arithmetic (bot.ts lines 63-83) -/

/-- The PST offset used by `toPST`: minus eight hours in milliseconds
(bot.ts line 66). -/
def pstOffset : Int := -8 * 60 * 60 * 1000

/-- Translation of `toPST` (bot.ts lines 64-68): shift the timestamp by a
fixed minus-eight-hour offset. -/
def toPST (t : Int) : Int := t + pstOffset

/-- Truncation of a timestamp to its civil day.  bot.ts builds
`new Date(d.getFullYear(), d.getMonth(), d.getDate())` and compares the
resulting epoch values; with the server locale at UTC this is floor
division of the epoch milliseconds by one day. -/
def civilDay (t : Int) : Int := t / 86400000

/-- The civil day of a timestamp in the fixed UTC-minus-8 zone. -/
def pstCivilDay (t : Int) : Int := civilDay (toPST t)

/-- Translation of `canClaimDailyReward` (bot.ts lines 71-83): claimable
when there is no previous claim, or when today's PST civil day is strictly
later than the last claim's PST civil day. -/
def canClaimDailyReward (lastReward : Option Int) (now : Int) : Bool :=
  match lastReward with
  | none => true
  | some last => decide (pstCivilDay last < pstCivilDay now)

/-! ### JS string primitives used by the handlers

JS `trim`, `toUpperCase` and `parseInt` are modelled directly on the
character list of the string, so that the proofs are plain list
reasoning.  `toUpperCase` is modelled on the ASCII range, which covers
every character a referral code can contain; `trim` is modelled on the
ASCII whitespace set. -/

/-- ASCII whitespace, as removed by JS `String.prototype.trim`. -/
def isJsWhitespace (c : Char) : Bool :=
  (9 ≤ c.toNat && c.toNat ≤ 13) || c.toNat == 32

/-- ASCII uppercasing of one character, as JS `toUpperCase` acts on the
characters that can occur in a referral code. -/
def jsCharUpper (c : Char) : Char :=
  if 97 ≤ c.toNat && c.toNat ≤ 122 then Char.ofNat (c.toNat - 32) else c

/-- JS `String.prototype.trim`: drop leading and trailing whitespace. -/
def jsTrim (s : String) : String :=
  ⟨(((s.data.dropWhile isJsWhitespace).reverse.dropWhile isJsWhitespace).reverse : List Char)⟩

/-- JS `String.prototype.toUpperCase` on ASCII text. -/
def jsToUpper (s : String) : String :=
  ⟨s.data.map jsCharUpper⟩

/-- Value of a list of decimal digit characters. -/
def digitsVal (ds : List Char) : Nat :=
  ds.foldl (fun acc c => acc * 10 + (c.toNat - 48)) 0

/-- JS `parseInt` with the default radix on already-trimmed text: an
optional sign followed by the longest prefix of decimal digits; `none`
models `NaN`.  (The hexadecimal `0x` form never yields a digit prefix the
handler accepts differently, and is not modelled.) -/
def jsParseInt (s : String) : Option Int :=
  let neg : Bool := s.data.head? == some '-'
  let hasSign : Bool := neg || (s.data.head? == some '+')
  let body : List Char := if hasSign then s.data.tail else s.data
  let ds := body.takeWhile (fun c => c.isDigit)
  if ds.isEmpty then none
  else some (if neg then -(digitsVal ds : Int) else (digitsVal ds : Int))

/-- Normalization applied to an entered invitation code (bot.ts line 436):
`text.trim().toUpperCase()`. -/
def normalizeInviteInput (text : String) : String :=
  jsToUpper (jsTrim text)

/-- Translation of `generateReferralCode` (bot.ts lines 59-61):
`nanoid(8).toUpperCase()`.  The external `nanoid` library returns its
random output as the argument `raw`, an 8-character string over the
URL-safe alphabet `A-Z a-z 0-9 - _`. -/
def generateReferralCode (raw : String) : String :=
  jsToUpper raw

/-- Membership in the URL-safe alphabet that `nanoid` draws from. -/
def nanoidAlphabetChar (c : Char) : Bool :=
  (65 ≤ c.toNat && c.toNat ≤ 90) || (97 ≤ c.toNat && c.toNat ≤ 122) ||
    (48 ≤ c.toNat && c.toNat ≤ 57) || c.toNat == 45 || c.toNat == 95

/-! ### Conversation state (bot.ts line 8 and call sites)

`userStates` is a `Map<string, { state: string; timestamp: number }>`,
modelled as an association list with `Map.get` / `Map.set` /
`Map.delete` semantics. -/

/-- One entry of the `userStates` map. -/
structure UserStateEntry where
  state : String
  timestamp : Int
deriving DecidableEq, Repr

/-- The `userStates` map, keyed by telegram id. -/
def UserStates : Type := List (String × UserStateEntry)

/-- `userStates.get(telegramId)`. -/
def statesGet (states : UserStates) (tid : String) : Option UserStateEntry :=
  ((states : List (String × UserStateEntry)).find? (fun p => p.1 == tid)).map (fun p => p.2)

/-- `userStates.delete(telegramId)`. -/
def statesDelete (states : UserStates) (tid : String) : UserStates :=
  (states : List (String × UserStateEntry)).filter (fun p => !(p.1 == tid))

/-- `userStates.set(telegramId, entry)`. -/
def statesSet (states : UserStates) (tid : String) (e : UserStateEntry) : UserStates :=
  ((tid, e) :: (statesDelete states tid : List (String × UserStateEntry)) : List (String × UserStateEntry))

/-! ### Shared mutation sequences of the handlers -/

/-- The four storage effects of a successful raffle entry, in source
order (bot.ts lines 489-505 and 923-939): debit the captured balance,
create the entry, bump the captured entry count, append the transaction. -/
def raffleEntryEffects (st : Storage) (tid : String) (user : User) (raffle : Raffle) : Storage :=
  let st1 := updateUser st tid (fun v => { v with coins := user.coins - raffle.entryCost })
  let st2 := enterRaffle st1 { raffleId := raffle.id, userId := user.id, entries := 1 }
  let st3 := updateRaffle st2 raffle.id (fun r => { r with currentEntries := raffle.currentEntries + 1 })
  createTransaction st3
    { userId := user.id, txType := .raffle_entry, amount := -raffle.entryCost,
      description := "Raffle entry: " ++ raffle.title }

/-- The storage effects of a successful shop purchase, in source order
(bot.ts lines 527-545 and 971-989): debit the captured balance, create the
purchase, decrement the captured stock when tracked, append the
transaction. -/
def shopPurchaseEffects (st : Storage) (tid : String) (user : User) (item : ShopItem) : Storage :=
  let st1 := updateUser st tid (fun v => { v with coins := user.coins - item.cost })
  let st2 := createPurchase st1
    { userId := user.id, itemId := item.id, quantity := 1, totalCost := item.cost,
      status := "completed" }
  let st3 :=
    match item.stock with
    | none => st2
    | some s => updateShopItem st2 item.id (fun i => { i with stock := some (s - 1) })
  createTransaction st3
    { userId := user.id, txType := .shop_purchase, amount := -item.cost,
      description := "Shop purchase: " ++ item.name }

/-! ### The /start handler (bot.ts lines 104-219) -/

/-- The referral block of the /start handler (bot.ts lines 146-165): when
the current user has no `referredBy` and a deep-link code is present and
owned by some user, credit both sides and record the code. -/
def referralBlock (st : Storage) (user : User) (referralCode : Option String)
    (referralReward : Int) : Storage :=
  match referralCode with
  | none => st
  | some code =>
      if user.referredBy.isSome then st
      else
        match getUserByReferralCode st code with
        | none => st
        | some referrer =>
            let st1 := awardReward st referrer.telegramId referralReward .referral
              "Referral bonus for inviting"
            let st2 := awardReward st1 user.telegramId referralReward .referral
              "Welcome bonus for joining via referral"
            updateUser st2 user.telegramId (fun v => { v with referredBy := some code })

/-- Translation of the /start command handler (bot.ts lines 104-219),
restricted to its storage effects.  A new user is created with
`referredBy` set straight from the deep-link code (line 124) and zero
coins; an existing user gets a display-name sync; then the referral block
runs.  `freshCode` stands for the `generateReferralCode()` call. -/
def startCommand (st : Storage) (tid : String)
    (uname fname lname : Option String) (referralCode : Option String)
    (freshCode : String) (referralReward : Int) : Storage :=
  match getUserByTelegramId st tid with
  | none =>
      let newUser : User :=
        { id := freshUserId st, telegramId := tid, username := uname,
          firstName := fname, lastName := lname, referralCode := freshCode,
          referredBy := referralCode, coins := 0, streak := 0,
          lastDailyReward := none, isActive := true }
      let st1 := createUser st newUser
      referralBlock st1 newUser referralCode referralReward
  | some user =>
      let user1 : User :=
        { user with
          username := match uname with | some v => some v | none => user.username,
          firstName := match fname with | some v => some v | none => user.firstName,
          lastName := match lname with | some v => some v | none => user.lastName }
      let st1 :=
        if user1 = user then st
        else updateUser st tid (fun v =>
          { v with username := user1.username, firstName := user1.firstName,
                   lastName := user1.lastName })
      referralBlock st1 user1 referralCode referralReward

/-! ### The daily-reward handlers -/

/-- Outcome of the /daily command as seen by the user. -/
inductive DailyResult where
  | notStarted
  | alreadyClaimed
  | claimed
deriving DecidableEq, Repr

/-- Modelled from the spec: `storage.claimDaily` (spec section 4.1) fails
with `AlreadyClaimedToday` when the last claim falls on today's fixed
UTC-minus-8 civil day, and otherwise atomically increments coins by the
configured daily amount, increments streak, sets `lastDailyReward` to now
and appends a `daily_reward` Transaction.  Eligibility uses the same
civil-day comparison as `canClaimDailyReward` in bot.ts. -/
def claimDaily (st : Storage) (tid : String) (amount : Int) (now : Int) :
    Except String Storage :=
  match getUserByTelegramId st tid with
  | none => .error "UserNotFound"
  | some u =>
      if canClaimDailyReward u.lastDailyReward now then
        .ok (updateUser (awardReward st tid amount .daily_reward "Daily login reward") tid
          (fun v => { v with streak := v.streak + 1, lastDailyReward := some now }))
      else .error "AlreadyClaimedToday"

/-- Translation of the /daily command handler (bot.ts lines 221-252): look
the user up, gate on `canClaimDailyReward`, then run `storage.claimDaily`. -/
def dailyCommand (st : Storage) (tid : String) (amount : Int) (now : Int) :
    Storage × DailyResult :=
  match getUserByTelegramId st tid with
  | none => (st, .notStarted)
  | some u =>
      if canClaimDailyReward u.lastDailyReward now then
        match claimDaily st tid amount now with
        | .ok st' => (st', .claimed)
        | .error _ => (st, .alreadyClaimed)
      else (st, .alreadyClaimed)

/-- Translation of `handleDailyCheckin` (bot.ts lines 613-688), storage
effects only: gate on `canClaimDailyReward` over the fetched user, then
`awardReward` the daily amount and set `lastDailyReward` to now.  The
Boolean reports whether the claim was applied. -/
def handleDailyCheckin (st : Storage) (tid : String) (user : User)
    (amount : Int) (now : Int) : Storage × Bool :=
  if canClaimDailyReward user.lastDailyReward now then
    let st1 := awardReward st tid amount .daily_reward "Daily login reward"
    (updateUser st1 tid (fun v => { v with lastDailyReward := some now }), true)
  else (st, false)

/-! ### The free-text message handler (bot.ts lines 418-553) -/

/-- Observable outcome of one free-text message, carrying the entity a
numbered selection resolved to. -/
inductive MsgOutcome where
  | earlyReturn
  | noUser
  | inviteInvalid
  | inviteOwnCode
  | inviteAlreadyReferred
  | inviteAccepted (code : String)
  | notNumber
  | raffleInsufficient (r : Raffle)
  | raffleEntered (r : Raffle)
  | shopInsufficient (i : ShopItem)
  | shopOutOfStock (i : ShopItem)
  | shopPurchased (i : ShopItem)
  | numberIgnored
deriving DecidableEq, Repr

/-- Result of the message handler: the storage, the conversation-state map
and the outcome. -/
structure MsgResult where
  st : Storage
  states : UserStates
  outcome : MsgOutcome

/-- The early-return guard of the message handler (bot.ts line 424): empty
text or a leading slash. -/
def isCommandOrEmpty (text : String) : Bool :=
  match text.data with
  | [] => true
  | c :: _ => c == '/'

/-- The out-of-stock test `item.stock !== null && item.stock <= 0`
(bot.ts lines 521 and 963). -/
def stockDepleted : Option Int → Bool
  | none => false
  | some s => decide (s ≤ 0)

/-- The numbered-selection tail of the message handler (bot.ts lines
475-549): parse the trimmed text as an integer, try it as a 1-based index
into the active raffles, then into the active shop items, and otherwise
fall through silently. -/
def numberSelection (st : Storage) (states : UserStates) (tid : String)
    (user : User) (text : String) : MsgResult :=
  match jsParseInt (jsTrim text) with
  | none => ⟨st, states, .notNumber⟩
  | some n =>
      let activeRaffles := getActiveRaffles st
      if 0 < n ∧ n ≤ (activeRaffles.length : Int) then
        match activeRaffles[(n - 1).toNat]? with
        | some raffle =>
            if user.coins < raffle.entryCost then
              ⟨st, states, .raffleInsufficient raffle⟩
            else
              ⟨raffleEntryEffects st tid user raffle, states, .raffleEntered raffle⟩
        | none => ⟨st, states, .numberIgnored⟩
      else
        let shopItems := getActiveShopItems st
        if 0 < n ∧ n ≤ (shopItems.length : Int) then
          match shopItems[(n - 1).toNat]? with
          | some item =>
              if user.coins < item.cost then
                ⟨st, states, .shopInsufficient item⟩
              else if stockDepleted item.stock then
                ⟨st, states, .shopOutOfStock item⟩
              else
                ⟨shopPurchaseEffects st tid user item, states, .shopPurchased item⟩
          | none => ⟨st, states, .numberIgnored⟩
        else ⟨st, states, .numberIgnored⟩

/-- Translation of the free-text message handler (bot.ts lines 418-553).
A pending `expecting_invite_code` state is deleted before the code lookup
(line 434), so it is consumed whatever the lookup yields; otherwise the
text goes to the numbered-selection logic. -/
def handleMessage (st : Storage) (states : UserStates) (tid : String)
    (text : String) (referralReward : Int) : MsgResult :=
  if isCommandOrEmpty text then ⟨st, states, .earlyReturn⟩
  else
    match getUserByTelegramId st tid with
    | none => ⟨st, states, .noUser⟩
    | some user =>
        match statesGet states tid with
        | some entry =>
            if entry.state == "expecting_invite_code" then
              let states' := statesDelete states tid
              let inviteCode := normalizeInviteInput text
              match getUserByReferralCode st inviteCode with
              | none => ⟨st, states', .inviteInvalid⟩
              | some codeOwner =>
                  if codeOwner.id == user.id then ⟨st, states', .inviteOwnCode⟩
                  else if user.referredBy.isSome then ⟨st, states', .inviteAlreadyReferred⟩
                  else
                    let st1 := awardReward st codeOwner.telegramId referralReward .referral
                      "Referral bonus for inviting"
                    let st2 := awardReward st1 tid referralReward .referral
                      "Bonus for using invitation code"
                    let st3 := updateUser st2 tid (fun v => { v with referredBy := some inviteCode })
                    ⟨st3, states', .inviteAccepted inviteCode⟩
            else numberSelection st states tid user text
        | none => numberSelection st states tid user text

/-! ### Callback-button handlers (bot.ts lines 556-1061) -/

/-- Outcome of a `raffle_<id>` callback.  The source has no closed-raffle
branch: the only rejections are a missing raffle and an insufficient
balance. -/
inductive RaffleResult where
  | raffleNotFound
  | insufficientBalance
  | entered
deriving DecidableEq, Repr

/-- Translation of `handleRaffleEntry` (bot.ts lines 907-945): fetch the
raffle by id, reject on missing raffle or insufficient captured balance,
otherwise apply the entry effects.  No activity, end-date or max-entries
check appears in the source. -/
def handleRaffleEntry (st : Storage) (tid : String) (user : User)
    (raffleId : Nat) : Storage × RaffleResult :=
  match getRaffleById st raffleId with
  | none => (st, .raffleNotFound)
  | some raffle =>
      if user.coins < raffle.entryCost then (st, .insufficientBalance)
      else (raffleEntryEffects st tid user raffle, .entered)

/-- Outcome of a `shop_<id>` callback. -/
inductive ShopResult where
  | itemNotFound
  | insufficientBalance
  | outOfStock
  | purchased
deriving DecidableEq, Repr

/-- Translation of `handleShopPurchase` (bot.ts lines 947-995): fetch the
item, reject on missing item, then on insufficient captured balance, then
on depleted tracked stock, otherwise apply the purchase effects.  The
balance check precedes the stock check in the source. -/
def handleShopPurchase (st : Storage) (tid : String) (user : User)
    (itemId : Nat) : Storage × ShopResult :=
  match (getAllShopItems st).find? (fun i => i.id == itemId) with
  | none => (st, .itemNotFound)
  | some item =>
      if user.coins < item.cost then (st, .insufficientBalance)
      else if stockDepleted item.stock then (st, .outOfStock)
      else (shopPurchaseEffects st tid user item, .purchased)

/-- Translation of `handleEnterCode` (bot.ts lines 874-905), state effect
only: arm the `expecting_invite_code` conversation state. -/
def handleEnterCode (states : UserStates) (tid : String) (ts : Int) : UserStates :=
  statesSet states tid { state := "expecting_invite_code", timestamp := ts }

/-- Translation of `handleBackToMenu` (bot.ts lines 997-1061), state
effect only: clear any conversation state for the user. -/
def handleBackToMenu (states : UserStates) (tid : String) : UserStates :=
  statesDelete states tid

/-! ### Broadcast (bot.ts lines 1071-1096) -/

/-- Observable outbound events of a broadcast run. -/
inductive BEvent where
  | sent (tid : String)
  | sendFailed (tid : String)
  | delayMs (ms : Nat)
deriving DecidableEq, Repr

/-- Result of `broadcastMessage`: the two counters and the ordered event
trace. -/
structure BroadcastResult where
  success : Nat
  failed : Nat
  events : List BEvent
deriving DecidableEq, Repr

/-- The per-recipient loop of `broadcastMessage` (bot.ts lines 1081-1093):
each send attempt is tried on its own; a successful send increments
`success` and is followed by a 50 ms pacing delay, a failed send is caught,
counted in `failed`, and the loop continues with the next recipient.
`ok` tells whether the transport accepts the send to a given recipient. -/
def broadcastRun (ok : String → Bool) : List String → BroadcastResult
  | [] => ⟨0, 0, []⟩
  | tid :: rest =>
      let r := broadcastRun ok rest
      if ok tid then
        ⟨r.success + 1, r.failed, .sent tid :: .delayMs 50 :: r.events⟩
      else
        ⟨r.success, r.failed + 1, .sendFailed tid :: r.events⟩

/-- Translation of `broadcastMessage` (bot.ts lines 1071-1096): iterate
over the active users in order. -/
def broadcastMessage (st : Storage) (ok : String → Bool) : BroadcastResult :=
  broadcastRun ok ((getActiveUsers st).map (fun u => u.telegramId))

/-- Pacing discipline of an event trace: every send is immediately
followed by the 50 ms delay. -/
def paced : List BEvent → Bool
  | [] => true
  | .sent _ :: .delayMs 50 :: rest => paced rest
  | .sent _ :: _ => false
  | .sendFailed _ :: rest => paced rest
  | .delayMs _ :: rest => paced rest

/-! ### Interleaved execution of two shop-purchase callbacks

The callback dispatcher (bot.ts lines 556-611) first awaits
`storage.getUserByTelegramId` and only later runs `handleShopPurchase`
against the captured user row; the two awaits let another task run in
between.  A task is therefore modelled with two atomic phases: the user
fetch, and the remainder of the handler applied to the captured row. -/

/-- Phase of one in-flight `shop_<id>` callback task. -/
inductive TaskPhase where
  | ready
  | fetched (user : User)
  | finished (success : Bool)
deriving DecidableEq, Repr

/-- One atomic step of a task against the shared storage. -/
def purchaseTaskStep (tid : String) (itemId : Nat) :
    Storage → TaskPhase → Storage × TaskPhase
  | st, .ready =>
      (match getUserByTelegramId st tid with
       | none => (st, .finished false)
       | some u => (st, .fetched u))
  | st, .fetched u =>
      let r := handleShopPurchase st tid u itemId
      (r.1, .finished (r.2 == .purchased))
  | st, .finished b => (st, .finished b)

/-- Shared state of two concurrent purchase tasks of the same user. -/
structure RaceState where
  st : Storage
  taskA : TaskPhase
  taskB : TaskPhase
deriving DecidableEq, Repr

/-- Run one scheduler choice: `true` steps task A, `false` steps task B. -/
def raceStep (tid : String) (itemId : Nat) (s : RaceState) (pickA : Bool) : RaceState :=
  if pickA then
    let r := purchaseTaskStep tid itemId s.st s.taskA
    ⟨r.1, r.2, s.taskB⟩
  else
    let r := purchaseTaskStep tid itemId s.st s.taskB
    ⟨r.1, s.taskA, r.2⟩

/-- Run a whole schedule. -/
def runRace (tid : String) (itemId : Nat) (s : RaceState) (sched : List Bool) : RaceState :=
  sched.foldl (raceStep tid itemId) s

/-! ### The handler-level transition system

One `BotOp` is one inbound Telegram event handled to completion; the
states between ops are the quiescent points of the system. -/

/-- Combined mutable state: the database plus the in-memory conversation
map. -/
structure SysState where
  storage : Storage
  states : UserStates

/-- One inbound event, with the configuration values the handler reads
from the settings table passed as already-parsed integers. -/
inductive BotOp where
  | startCmd (tid : String) (uname fname lname : Option String)
      (code : Option String) (freshCode : String) (reward : Int)
  | dailyCmd (tid : String) (amount : Int) (now : Int)
  | dailyCheckinCb (tid : String) (amount : Int) (now : Int)
  | textMessage (tid : String) (text : String) (reward : Int)
  | raffleCb (tid : String) (raffleId : Nat)
  | shopCb (tid : String) (itemId : Nat)
  | enterCodeCb (tid : String) (ts : Int)
  | backToMenuCb (tid : String)

/-- Dispatch of one inbound event, as the bot's handler registrations do
it.  Callback handlers receive the user row fetched by the dispatcher
(bot.ts line 565). -/
def applyOp (s : SysState) : BotOp → SysState
  | .startCmd tid uname fname lname code freshCode reward =>
      ⟨startCommand s.storage tid uname fname lname code freshCode reward, s.states⟩
  | .dailyCmd tid amount now =>
      ⟨(dailyCommand s.storage tid amount now).1, s.states⟩
  | .dailyCheckinCb tid amount now =>
      match getUserByTelegramId s.storage tid with
      | none => s
      | some user => ⟨(handleDailyCheckin s.storage tid user amount now).1, s.states⟩
  | .textMessage tid text reward =>
      let r := handleMessage s.storage s.states tid text reward
      ⟨r.st, r.states⟩
  | .raffleCb tid raffleId =>
      match getUserByTelegramId s.storage tid with
      | none => s
      | some user => ⟨(handleRaffleEntry s.storage tid user raffleId).1, s.states⟩
  | .shopCb tid itemId =>
      match getUserByTelegramId s.storage tid with
      | none => s
      | some user => ⟨(handleShopPurchase s.storage tid user itemId).1, s.states⟩
  | .enterCodeCb tid ts => ⟨s.storage, handleEnterCode s.states tid ts⟩
  | .backToMenuCb tid => ⟨s.storage, handleBackToMenu s.states tid⟩

/-- Sum of the transaction amounts recorded for one user id. -/
def txnSum (txns : List Transaction) (uid : Nat) : Int :=
  match txns with
  | [] => 0
  | t :: rest => (if t.userId = uid then t.amount else 0) + txnSum rest uid

/-- The ledger invariant over the user and transaction tables: primary and
external keys are unique, every transaction belongs to an existing user,
and each user's balance equals the sum of their transaction amounts. -/
def InvData (users : List User) (txns : List Transaction) : Prop :=
  (users.map (fun u => u.id)).Nodup ∧
  (users.map (fun u => u.telegramId)).Nodup ∧
  (∀ t ∈ txns, t.userId ∈ users.map (fun u => u.id)) ∧
  (∀ u ∈ users, txnSum txns u.id = u.coins)

/-- The ledger invariant of a storage state. -/
def Inv (st : Storage) : Prop :=
  InvData st.users st.transactions

/-! ### Concrete fixtures for the executable theorems -/

/-- Referrer R with balance 10 and referral code `ABCD1234`. -/
def referrerR : User :=
  { id := 1, telegramId := "r1", username := none, firstName := none,
    lastName := none, referralCode := "ABCD1234", referredBy := none,
    coins := 10, streak := 0, lastDailyReward := none, isActive := true }

/-- Database holding only the referrer R. -/
def stReferrerOnly : Storage := { initialStorage with users := [referrerR] }

/-- Database after the new user `n1` sends `/start ABCD1234`. -/
def stAfterStart : Storage :=
  startCommand stReferrerOnly "n1" none none none (some "ABCD1234") "ZZZZ9999" 5

/-- A user with id 2 and no coins. -/
def brokeUser : User :=
  { id := 2, telegramId := "n1", username := none, firstName := none,
    lastName := none, referralCode := "ZZZZ9999", referredBy := none,
    coins := 0, streak := 0, lastDailyReward := none, isActive := true }

/-- A user with id 2 and exactly 5 coins. -/
def fiveCoinUser : User := { brokeUser with coins := 5 }

/-- A tracked item costing 5 with zero stock. -/
def soldOutItem : ShopItem :=
  { id := 7, name := "X", itemDescription := none, cost := 5,
    stock := some 0, isActive := true }

/-- Database for the out-of-stock scenario: a broke user and the sold-out
item. -/
def stSoldOut : Storage :=
  { initialStorage with users := [brokeUser], shopItems := [soldOutItem] }

/-- A raffle that is closed three ways at once: inactive, past its end
date, and at its max-entries limit. -/
def closedRaffle : Raffle :=
  { id := 3, title := "R", prizeDescription := "P", entryCost := 5,
    currentEntries := 1, maxEntries := some 1, endDate := 0, isActive := false }

/-- Database for the closed-raffle scenario. -/
def stClosedRaffle : Storage :=
  { initialStorage with users := [fiveCoinUser], raffles := [closedRaffle] }

/-- An untracked-stock item costing 5. -/
def itemCost5 : ShopItem :=
  { id := 9, name := "Y", itemDescription := none, cost := 5,
    stock := none, isActive := true }

/-- Database for the purchase race: a user holding exactly the item's
cost. -/
def stRace : Storage :=
  { initialStorage with users := [fiveCoinUser], shopItems := [itemCost5] }

/-- The lost-update schedule: both tasks fetch the user row before either
writes. -/
def bothReadFirst : List Bool := [true, false, true, false]

/-- Final state of the race under that schedule. -/
def raceResult : RaceState := runRace "n1" 9 ⟨stRace, .ready, .ready⟩ bothReadFirst

/-! ### C2 -/

/-- C2.  The `/start` deep-link referral path never credits a new user:
the user row is created with `referredBy` already set to the deep-link
code (bot.ts line 124), so the credit block guarded by `!user.referredBy`
(line 147) is skipped.  With referrer R at balance 10 and referral amount
5, after new user `n1` sends `/start ABCD1234` the code leaves R at 10 and
`n1` at 0 with no transactions — the claim (R at 15, `n1` at 5, one
transaction each) fails, while the bot's own outbound strings promise
"You and your friend both get N coins when they join". -/
theorem C2_start_referral_never_credits :
    (getUserByTelegramId stAfterStart "r1").map (fun u => u.coins) = some 10 ∧
    (getUserByTelegramId stAfterStart "n1").map (fun u => (u.coins, u.referredBy)) =
      some (0, some "ABCD1234") ∧
    stAfterStart.transactions = [] := by
  refine ⟨rfl, rfl, rfl⟩

/-! ### C4 -/

/-- C4.  Two concurrent `shop_9` callbacks of the same user, whose balance
exactly equals the item cost, both succeed when both tasks fetch the user
row before either writes: the handler validates against the captured row,
so the second write is based on a stale balance.  Both purchases complete,
two `-5` transactions are logged, and the final balance 0 no longer equals
the transaction sum `-10` — the claimed "exactly one success, never two"
serial equivalence fails. -/
theorem C4_double_purchase_race :
    raceResult.taskA = .finished true ∧
    raceResult.taskB = .finished true ∧
    (getUserByTelegramId raceResult.st "n1").map (fun u => u.coins) = some 0 ∧
    raceResult.st.purchases.length = 2 ∧
    txnSum raceResult.st.transactions 2 = -10 := by
  refine ⟨rfl, rfl, rfl, rfl, rfl⟩

/-! ### C5 -/

/-- C5, counterexample.  With tracked stock 0 and a balance below the
cost, `handleShopPurchase` rejects with `InsufficientBalance`, not
`OutOfStock`: the balance check (bot.ts line 955) runs before the stock
check (line 963).  The claim's "OutOfStock regardless of the user's
balance (including when user.coins < item.cost)" is false here. -/
theorem C5_counterexample_balance_checked_first :
    (handleShopPurchase stSoldOut "n1" brokeUser 7).2 = .insufficientBalance ∧
    ShopResult.insufficientBalance ≠ ShopResult.outOfStock := by
  exact ⟨rfl, by decide⟩

/-! ### C6 -/

/-- C6.  `handleRaffleEntry` has no closed-raffle branch: a raffle that is
inactive, past its end date and already at its max-entries limit is still
entered by a user holding the entry cost.  The user is debited to 0, the
entry count is pushed to 2 past `maxEntries = 1`, and an entry plus a
transaction are recorded — the claimed `RaffleClosed` rejection with no
side effects does not happen, though the raffle's advertised entry cap and
end date make the cap semantics the clear intent. -/
theorem C6_closed_raffle_still_entered :
    (handleRaffleEntry stClosedRaffle "n1" fiveCoinUser 3).2 = .entered ∧
    (getUserByTelegramId (handleRaffleEntry stClosedRaffle "n1" fiveCoinUser 3).1 "n1").map
      (fun u => u.coins) = some 0 ∧
    (getRaffleById (handleRaffleEntry stClosedRaffle "n1" fiveCoinUser 3).1 3).map
      (fun r => r.currentEntries) = some 2 ∧
    (handleRaffleEntry stClosedRaffle "n1" fiveCoinUser 3).1.raffleEntries.length = 1 ∧
    (handleRaffleEntry stClosedRaffle "n1" fiveCoinUser 3).1.transactions.length = 1 := by
  refine ⟨rfl, rfl, rfl, rfl, rfl⟩

/-! ### Projection lemmas for the storage primitives -/

@[simp] theorem users_updateUser (st : Storage) (tid : String) (f : User → User) :
    (updateUser st tid f).users =
      st.users.map (fun u => if u.telegramId == tid then f u else u) := rfl

@[simp] theorem transactions_updateUser (st : Storage) (tid : String) (f : User → User) :
    (updateUser st tid f).transactions = st.transactions := rfl

@[simp] theorem users_createTransaction (st : Storage) (t : Transaction) :
    (createTransaction st t).users = st.users := rfl

@[simp] theorem transactions_createTransaction (st : Storage) (t : Transaction) :
    (createTransaction st t).transactions = t :: st.transactions := rfl

@[simp] theorem users_createUser (st : Storage) (u : User) :
    (createUser st u).users = u :: st.users := rfl

@[simp] theorem transactions_createUser (st : Storage) (u : User) :
    (createUser st u).transactions = st.transactions := rfl

@[simp] theorem users_enterRaffle (st : Storage) (e : RaffleEntry) :
    (enterRaffle st e).users = st.users := rfl

@[simp] theorem transactions_enterRaffle (st : Storage) (e : RaffleEntry) :
    (enterRaffle st e).transactions = st.transactions := rfl

@[simp] theorem users_updateRaffle (st : Storage) (rid : Nat) (f : Raffle → Raffle) :
    (updateRaffle st rid f).users = st.users := rfl

@[simp] theorem transactions_updateRaffle (st : Storage) (rid : Nat) (f : Raffle → Raffle) :
    (updateRaffle st rid f).transactions = st.transactions := rfl

@[simp] theorem users_createPurchase (st : Storage) (p : Purchase) :
    (createPurchase st p).users = st.users := rfl

@[simp] theorem transactions_createPurchase (st : Storage) (p : Purchase) :
    (createPurchase st p).transactions = st.transactions := rfl

@[simp] theorem users_updateShopItem (st : Storage) (iid : Nat) (f : ShopItem → ShopItem) :
    (updateShopItem st iid f).users = st.users := rfl

@[simp] theorem transactions_updateShopItem (st : Storage) (iid : Nat) (f : ShopItem → ShopItem) :
    (updateShopItem st iid f).transactions = st.transactions := rfl

/-! ### Ledger-sum helpers -/

theorem txnSum_cons (t : Transaction) (rest : List Transaction) (uid : Nat) :
    txnSum (t :: rest) uid = (if t.userId = uid then t.amount else 0) + txnSum rest uid := rfl

theorem txnSum_eq_zero (txns : List Transaction) (uid : Nat)
    (h : ∀ t ∈ txns, t.userId ≠ uid) : txnSum txns uid = 0 := by
  induction txns with
  | nil => rfl
  | cons t rest ih =>
      rw [txnSum_cons, if_neg (h t (List.mem_cons_self t rest)),
        ih (fun s hs => h s (List.mem_cons_of_mem t hs))]
      ring

/-- Every element is bounded by the running maximum used by `freshUserId`. -/
theorem le_foldr_max (l : List Nat) : ∀ x ∈ l, x ≤ l.foldr max 0 := by
  induction l with
  | nil => intro x hx; cases hx
  | cons y ys ih =>
      intro x hx
      rcases List.mem_cons.1 hx with h | h
      · subst h; exact le_max_left _ _
      · exact le_trans (ih x h) (le_max_right _ _)

theorem freshUserId_not_mem (st : Storage) :
    freshUserId st ∉ st.users.map (fun u => u.id) := by
  intro hmem
  have := le_foldr_max (st.users.map (fun u => u.id)) _ hmem
  simp only [freshUserId] at this
  omega

/-! ### Invariant preservation, generic credit step

The single pattern every balance mutation in bot.ts follows: rewrite the
user row found by telegram id so that its balance moves by `a`, and append
a transaction for that row whose signed amount is `a`. -/

theorem creditStep {users : List User} {txns : List Transaction} {tid : String}
    {u : User} {f : User → User} {a : Int} {ty : TxnType} {d : String}
    (hinv : InvData users txns)
    (hfind : users.find? (fun v => v.telegramId == tid) = some u)
    (hid : ∀ v, (f v).id = v.id) (htid : ∀ v, (f v).telegramId = v.telegramId)
    (hcu : (f u).coins = u.coins + a) :
    InvData (users.map (fun v => if v.telegramId == tid then f v else v))
      ({ userId := u.id, txType := ty, amount := a, description := d } :: txns) := by
  obtain ⟨hids, htids, htu, hbal⟩ := hinv
  have humem : u ∈ users := List.mem_of_find?_eq_some hfind
  have hutid : u.telegramId = tid := by
    have := List.find?_some hfind; simpa using this
  have hmap_id : (users.map (fun v => if v.telegramId == tid then f v else v)).map
      (fun u => u.id) = users.map (fun u => u.id) := by
    rw [List.map_map]
    refine List.map_congr_left (fun v _ => ?_)
    by_cases h : v.telegramId = tid <;> simp [h, hid]
  have hmap_tid : (users.map (fun v => if v.telegramId == tid then f v else v)).map
      (fun u => u.telegramId) = users.map (fun u => u.telegramId) := by
    rw [List.map_map]
    refine List.map_congr_left (fun v _ => ?_)
    by_cases h : v.telegramId = tid <;> simp [h, htid]
  refine ⟨by rw [hmap_id]; exact hids, by rw [hmap_tid]; exact htids, ?_, ?_⟩
  · intro t ht
    rw [hmap_id]
    rcases List.mem_cons.1 ht with h | h
    · subst h; exact List.mem_map_of_mem (fun u => u.id) humem
    · exact htu t h
  · intro w' hw'
    rcases List.mem_map.1 hw' with ⟨w, hwmem, rfl⟩
    by_cases hwt : w.telegramId = tid
    · have hwu : w = u := by
        refine List.inj_on_of_nodup_map htids hwmem humem ?_
        rw [hwt, hutid]
      subst hwu
      rw [if_pos (by simp [hwt])]
      rw [txnSum_cons, hid, if_pos rfl, hbal w hwmem, hcu]
      ring
    · rw [if_neg (by simp [hwt])]
      rw [txnSum_cons, if_neg ?hne, hbal w hwmem]
      · ring
      case hne =>
        intro hidemq
        have : u = w := List.inj_on_of_nodup_map hids humem hwmem hidemq
        exact hwt (this ▸ hutid)

/-- Invariant preservation under a user update that does not touch the
key fields or the balance. -/
theorem nonLedgerStep {users : List User} {txns : List Transaction} {tid : String}
    {f : User → User}
    (hinv : InvData users txns)
    (hid : ∀ v, (f v).id = v.id) (htid : ∀ v, (f v).telegramId = v.telegramId)
    (hcoins : ∀ v, (f v).coins = v.coins) :
    InvData (users.map (fun v => if v.telegramId == tid then f v else v)) txns := by
  obtain ⟨hids, htids, htu, hbal⟩ := hinv
  have hmap_id : (users.map (fun v => if v.telegramId == tid then f v else v)).map
      (fun u => u.id) = users.map (fun u => u.id) := by
    rw [List.map_map]
    refine List.map_congr_left (fun v _ => ?_)
    by_cases h : v.telegramId = tid <;> simp [h, hid]
  have hmap_tid : (users.map (fun v => if v.telegramId == tid then f v else v)).map
      (fun u => u.telegramId) = users.map (fun u => u.telegramId) := by
    rw [List.map_map]
    refine List.map_congr_left (fun v _ => ?_)
    by_cases h : v.telegramId = tid <;> simp [h, htid]
  refine ⟨by rw [hmap_id]; exact hids, by rw [hmap_tid]; exact htids, ?_, ?_⟩
  · intro t ht; rw [hmap_id]; exact htu t ht
  · intro w' hw'
    rcases List.mem_map.1 hw' with ⟨w, hwmem, rfl⟩
    by_cases hwt : w.telegramId = tid
    · rw [if_pos (by simp [hwt])]
      rw [hid, hcoins, hbal w hwmem]
    · rw [if_neg (by simp [hwt])]
      exact hbal w hwmem

/-! ### Invariant preservation per storage operation and handler -/

theorem inv_awardReward (st : Storage) (tid : String) (a : Int) (ty : TxnType)
    (d : String) (hinv : Inv st) : Inv (awardReward st tid a ty d) := by
  unfold awardReward
  cases hfind : getUserByTelegramId st tid with
  | none => exact hinv
  | some u =>
      unfold Inv
      simp only [users_createTransaction, users_updateUser, transactions_createTransaction,
        transactions_updateUser]
      exact creditStep hinv hfind (fun v => rfl) (fun v => rfl) rfl

theorem inv_createUser (st : Storage) (u : User) (hinv : Inv st)
    (hfresh : getUserByTelegramId st u.telegramId = none)
    (hid : u.id = freshUserId st) (hcoins : u.coins = 0) : Inv (createUser st u) := by
  obtain ⟨hids, htids, htu, hbal⟩ := hinv
  have hnotid : u.id ∉ st.users.map (fun v => v.id) := by
    rw [hid]; exact freshUserId_not_mem st
  have hnottid : u.telegramId ∉ st.users.map (fun v => v.telegramId) := by
    intro hmem
    rcases List.mem_map.1 hmem with ⟨w, hwmem, hw⟩
    have := (List.find?_eq_none.1 hfresh) w hwmem
    simp [hw] at this
  refine ⟨?_, ?_, ?_, ?_⟩
  · simp only [users_createUser, List.map_cons, List.nodup_cons]
    exact ⟨hnotid, hids⟩
  · simp only [users_createUser, List.map_cons, List.nodup_cons]
    exact ⟨hnottid, htids⟩
  · intro t ht
    simp only [users_createUser, transactions_createUser] at *
    exact List.mem_cons_of_mem _ (htu t ht)
  · intro w hw
    simp only [users_createUser, transactions_createUser] at *
    rcases List.mem_cons.1 hw with h | h
    · subst h
      rw [hcoins]
      refine txnSum_eq_zero _ _ (fun t ht => ?_)
      intro heq
      exact hnotid (heq ▸ htu t ht)
    · exact hbal w h

theorem inv_raffleEntryEffects (st : Storage) (tid : String) (user : User)
    (r : Raffle) (hinv : Inv st)
    (hfind : getUserByTelegramId st tid = some user) :
    Inv (raffleEntryEffects st tid user r) := by
  unfold raffleEntryEffects Inv
  simp only [users_createTransaction, users_updateRaffle, users_enterRaffle,
    users_updateUser, transactions_createTransaction, transactions_updateRaffle,
    transactions_enterRaffle, transactions_updateUser]
  exact creditStep hinv hfind (fun v => rfl) (fun v => rfl) (by ring)

theorem inv_shopPurchaseEffects (st : Storage) (tid : String) (user : User)
    (item : ShopItem) (hinv : Inv st)
    (hfind : getUserByTelegramId st tid = some user) :
    Inv (shopPurchaseEffects st tid user item) := by
  unfold shopPurchaseEffects Inv
  cases item.stock with
  | none =>
      simp only [users_createTransaction, users_createPurchase, users_updateUser,
        transactions_createTransaction, transactions_createPurchase, transactions_updateUser]
      exact creditStep hinv hfind (fun v => rfl) (fun v => rfl) (by ring)
  | some s =>
      simp only [users_createTransaction, users_updateShopItem, users_createPurchase,
        users_updateUser, transactions_createTransaction, transactions_updateShopItem,
        transactions_createPurchase, transactions_updateUser]
      exact creditStep hinv hfind (fun v => rfl) (fun v => rfl) (by ring)

theorem inv_updateUser_nonledger (st : Storage) (tid : String) (f : User → User)
    (hinv : Inv st) (hid : ∀ v, (f v).id = v.id)
    (htid : ∀ v, (f v).telegramId = v.telegramId)
    (hcoins : ∀ v, (f v).coins = v.coins) : Inv (updateUser st tid f) := by
  unfold Inv
  simp only [users_updateUser, transactions_updateUser]
  exact nonLedgerStep hinv hid htid hcoins

theorem inv_referralBlock (st : Storage) (user : User) (code : Option String)
    (reward : Int) (hinv : Inv st) : Inv (referralBlock st user code reward) := by
  unfold referralBlock
  cases code with
  | none => exact hinv
  | some c =>
      by_cases h : user.referredBy.isSome
      · simp only [h, if_true]; exact hinv
      · simp only [h, if_false]
        cases getUserByReferralCode st c with
        | none => exact hinv
        | some referrer =>
            refine inv_updateUser_nonledger _ _ _ ?_ (fun v => rfl) (fun v => rfl) (fun v => rfl)
            exact inv_awardReward _ _ _ _ _ (inv_awardReward _ _ _ _ _ hinv)

theorem inv_startCommand (st : Storage) (tid : String)
    (uname fname lname : Option String) (code : Option String)
    (freshCode : String) (reward : Int) (hinv : Inv st) :
    Inv (startCommand st tid uname fname lname code freshCode reward) := by
  unfold startCommand
  cases hfind : getUserByTelegramId st tid with
  | none =>
      refine inv_referralBlock _ _ _ _ ?_
      exact inv_createUser _ _ hinv hfind rfl rfl
  | some user =>
      refine inv_referralBlock _ _ _ _ ?_
      split
      · exact hinv
      · exact inv_updateUser_nonledger _ _ _ hinv (fun v => rfl) (fun v => rfl) (fun v => rfl)

theorem inv_claimDaily (st : Storage) (tid : String) (amount now : Int)
    (st' : Storage) (hinv : Inv st)
    (h : claimDaily st tid amount now = .ok st') : Inv st' := by
  unfold claimDaily at h
  cases hfind : getUserByTelegramId st tid with
  | none => rw [hfind] at h; cases h
  | some u =>
      rw [hfind] at h
      dsimp only at h
      split at h
      · cases h
        refine inv_updateUser_nonledger _ _ _ ?_ (fun v => rfl) (fun v => rfl) (fun v => rfl)
        exact inv_awardReward _ _ _ _ _ hinv
      · cases h

theorem inv_dailyCommand (st : Storage) (tid : String) (amount now : Int)
    (hinv : Inv st) : Inv (dailyCommand st tid amount now).1 := by
  unfold dailyCommand
  cases getUserByTelegramId st tid with
  | none => exact hinv
  | some u =>
      dsimp only
      split
      · cases hcd : claimDaily st tid amount now with
        | ok st' => exact inv_claimDaily st tid amount now st' hinv hcd
        | error e => exact hinv
      · exact hinv

theorem inv_handleDailyCheckin (st : Storage) (tid : String) (user : User)
    (amount now : Int) (hinv : Inv st) :
    Inv (handleDailyCheckin st tid user amount now).1 := by
  unfold handleDailyCheckin
  split
  · refine inv_updateUser_nonledger _ _ _ ?_ (fun v => rfl) (fun v => rfl) (fun v => rfl)
    exact inv_awardReward _ _ _ _ _ hinv
  · exact hinv

theorem inv_numberSelection (st : Storage) (states : UserStates) (tid : String)
    (user : User) (text : String) (hinv : Inv st)
    (hfind : getUserByTelegramId st tid = some user) :
    Inv (numberSelection st states tid user text).st := by
  unfold numberSelection
  cases jsParseInt (jsTrim text) with
  | none => exact hinv
  | some n =>
      dsimp only
      split
      · split
        · split
          · exact hinv
          · exact inv_raffleEntryEffects _ _ _ _ hinv hfind
        · exact hinv
      · split
        · split
          · split
            · exact hinv
            · split
              · exact hinv
              · exact inv_shopPurchaseEffects _ _ _ _ hinv hfind
          · exact hinv
        · exact hinv

theorem inv_handleMessage (st : Storage) (states : UserStates) (tid text : String)
    (reward : Int) (hinv : Inv st) :
    Inv (handleMessage st states tid text reward).st := by
  unfold handleMessage
  split
  · exact hinv
  · cases hfind : getUserByTelegramId st tid with
    | none => exact hinv
    | some user =>
        cases statesGet states tid with
        | none => exact inv_numberSelection _ _ _ _ _ hinv hfind
        | some entry =>
            dsimp only
            split
            · cases getUserByReferralCode st (normalizeInviteInput text) with
              | none => exact hinv
              | some codeOwner =>
                  dsimp only
                  split
                  · exact hinv
                  · split
                    · exact hinv
                    · refine inv_updateUser_nonledger _ _ _ ?_ (fun v => rfl)
                        (fun v => rfl) (fun v => rfl)
                      exact inv_awardReward _ _ _ _ _ (inv_awardReward _ _ _ _ _ hinv)
            · exact inv_numberSelection _ _ _ _ _ hinv hfind

theorem inv_handleRaffleEntry (st : Storage) (tid : String) (user : User)
    (raffleId : Nat) (hinv : Inv st)
    (hfind : getUserByTelegramId st tid = some user) :
    Inv (handleRaffleEntry st tid user raffleId).1 := by
  unfold handleRaffleEntry
  cases getRaffleById st raffleId with
  | none => exact hinv
  | some raffle =>
      dsimp only
      split
      · exact hinv
      · exact inv_raffleEntryEffects _ _ _ _ hinv hfind

theorem inv_handleShopPurchase (st : Storage) (tid : String) (user : User)
    (itemId : Nat) (hinv : Inv st)
    (hfind : getUserByTelegramId st tid = some user) :
    Inv (handleShopPurchase st tid user itemId).1 := by
  unfold handleShopPurchase
  cases (getAllShopItems st).find? (fun i => i.id == itemId) with
  | none => exact hinv
  | some item =>
      dsimp only
      split
      · exact hinv
      · split
        · exact hinv
        · exact inv_shopPurchaseEffects _ _ _ _ hinv hfind

/-! ### C1 -/

/-- C1.  At every quiescent point the ledger invariant holds: handling any
single inbound event from a state in which each user's balance equals the
sum of that user's transaction amounts yields a state with the same
property, because every balance mutation the handlers perform (daily
reward, referral award, raffle-entry debit, shop-purchase debit) appends a
Transaction whose signed amount equals the balance change it applied, and
user creation starts at balance 0 with no transactions. -/
theorem C1_ledger_invariant_preserved (s : SysState) (op : BotOp)
    (hinv : Inv s.storage) : Inv (applyOp s op).storage := by
  cases op with
  | startCmd tid uname fname lname code freshCode reward =>
      exact inv_startCommand _ _ _ _ _ _ _ _ hinv
  | dailyCmd tid amount now => exact inv_dailyCommand _ _ _ _ hinv
  | dailyCheckinCb tid amount now =>
      dsimp only [applyOp]
      cases getUserByTelegramId s.storage tid with
      | none => exact hinv
      | some user => exact inv_handleDailyCheckin _ _ _ _ _ hinv
  | textMessage tid text reward => exact inv_handleMessage _ _ _ _ _ hinv
  | raffleCb tid raffleId =>
      dsimp only [applyOp]
      cases hfind : getUserByTelegramId s.storage tid with
      | none => exact hinv
      | some user => exact inv_handleRaffleEntry _ _ _ _ hinv hfind
  | shopCb tid itemId =>
      dsimp only [applyOp]
      cases hfind : getUserByTelegramId s.storage tid with
      | none => exact hinv
      | some user => exact inv_handleShopPurchase _ _ _ _ hinv hfind
  | enterCodeCb tid ts => exact hinv
  | backToMenuCb tid => exact hinv

/-- A balanced concrete state for the C1 witness: one user holding 5 coins
with a single +5 transaction, and one open affordable raffle. -/
def witnessStorage : Storage :=
  { initialStorage with
    users := [fiveCoinUser],
    transactions := [{ userId := 2, txType := .referral, amount := 5, description := "w" }],
    raffles := [{ closedRaffle with isActive := true }] }

/-- Witness for C1: the invariant holds in `witnessStorage`, and is
preserved when the user enters the raffle through a `raffle_3` callback. -/
theorem C1_ledger_invariant_preserved_witness :
    Inv witnessStorage ∧
    Inv (applyOp (SysState.mk witnessStorage []) (.raffleCb "n1" 3)).storage := by
  constructor
  · unfold Inv InvData; decide
  · exact C1_ledger_invariant_preserved (SysState.mk witnessStorage []) (.raffleCb "n1" 3)
      (by unfold Inv InvData; decide)

/-! ### C3 -/

/-- Looking a user up by telegram id after an update that preserves
telegram ids returns the updated row. -/
theorem find?_map_update (l : List User) (tid : String) (f : User → User)
    (hf : ∀ v, (f v).telegramId = v.telegramId) :
    (l.map (fun u => if u.telegramId == tid then f u else u)).find?
        (fun u => u.telegramId == tid)
      = (l.find? (fun u => u.telegramId == tid)).map f := by
  induction l with
  | nil => rfl
  | cons u us ih =>
      simp only [List.map_cons]
      by_cases h : u.telegramId = tid
      · rw [if_pos (by simp [h])]
        rw [List.find?_cons_of_pos _ (by simp [hf, h]),
          List.find?_cons_of_pos _ (by simp [h])]
        rfl
      · rw [if_neg (by simp [h])]
        rw [List.find?_cons_of_neg _ (by simp [h]),
          List.find?_cons_of_neg _ (by simp [h])]
        exact ih

theorem getUser_updateUser (st : Storage) (tid : String) (f : User → User)
    (hf : ∀ v, (f v).telegramId = v.telegramId) :
    getUserByTelegramId (updateUser st tid f) tid
      = (getUserByTelegramId st tid).map f := by
  unfold getUserByTelegramId
  simp only [users_updateUser]
  exact find?_map_update st.users tid f hf

theorem getUser_createTransaction (st : Storage) (t : Transaction) (tid : String) :
    getUserByTelegramId (createTransaction st t) tid = getUserByTelegramId st tid := rfl

/-- The PST civil day is monotone in the timestamp. -/
theorem pstCivilDay_mono {a b : Int} (h : a ≤ b) : pstCivilDay a ≤ pstCivilDay b := by
  unfold pstCivilDay civilDay toPST
  exact Int.ediv_le_ediv (by norm_num) (by omega)

/-- Boundary behaviour of the /daily command path: for a user whose last
daily claim is at `last ≤ now`, it fails with the already-claimed
rejection exactly when `last`, normalized to the fixed UTC-minus-8 civil
day, equals today's normalized civil day; otherwise the spec-modelled
`storage.claimDaily` increments the balance and the streak and sets
`lastDailyReward` to now. -/
theorem dailyCommand_boundary (st : Storage) (tid : String) (u : User)
    (amount now last : Int)
    (huser : getUserByTelegramId st tid = some u)
    (hlast : u.lastDailyReward = some last)
    (hle : last ≤ now) :
    ((dailyCommand st tid amount now).2 = .alreadyClaimed ↔
      pstCivilDay last = pstCivilDay now) ∧
    (pstCivilDay last ≠ pstCivilDay now →
      (dailyCommand st tid amount now).2 = .claimed ∧
      getUserByTelegramId (dailyCommand st tid amount now).1 tid =
        some { u with
          coins := u.coins + amount, streak := u.streak + 1,
          lastDailyReward := some now }) := by
  have hmono : pstCivilDay last ≤ pstCivilDay now := pstCivilDay_mono hle
  by_cases heq : pstCivilDay last = pstCivilDay now
  · have hcc : canClaimDailyReward u.lastDailyReward now = false := by
      rw [hlast]
      unfold canClaimDailyReward
      simp [heq]
    have hres : dailyCommand st tid amount now = (st, .alreadyClaimed) := by
      unfold dailyCommand
      rw [huser]
      dsimp only
      rw [hcc]
      simp
    refine ⟨by simp [hres, heq], fun hne => absurd heq hne⟩
  · have hlt : pstCivilDay last < pstCivilDay now := lt_of_le_of_ne hmono heq
    have hcc : canClaimDailyReward u.lastDailyReward now = true := by
      rw [hlast]
      unfold canClaimDailyReward
      simp [hlt]
    have hclaim : claimDaily st tid amount now =
        .ok (updateUser (awardReward st tid amount .daily_reward "Daily login reward") tid
          (fun v => { v with streak := v.streak + 1, lastDailyReward := some now })) := by
      unfold claimDaily
      rw [huser]
      dsimp only
      rw [hcc]
      simp
    have hres : dailyCommand st tid amount now =
        (updateUser (awardReward st tid amount .daily_reward "Daily login reward") tid
          (fun v => { v with streak := v.streak + 1, lastDailyReward := some now }),
         .claimed) := by
      unfold dailyCommand
      rw [huser]
      dsimp only
      rw [hcc, hclaim]
      simp
    refine ⟨by simp [hres, heq], fun _ => ⟨by simp [hres], ?_⟩⟩
    rw [hres]
    dsimp only
    rw [getUser_updateUser _ tid
      (fun v => { v with streak := v.streak + 1, lastDailyReward := some now })
      (fun v => rfl)]
    unfold awardReward
    rw [huser]
    rw [getUser_createTransaction, getUser_updateUser _ tid
      (fun v => { v with coins := v.coins + amount }) (fun v => rfl), huser]
    rfl

/-- User for the C3 witness: last claim at the epoch. -/
def dailyUser : User := { brokeUser with lastDailyReward := some 0 }

/-- Database for the C3 witness. -/
def stDaily : Storage := { initialStorage with users := [dailyUser] }

/-- Boundary behaviour of the button-callback claim path
`handleDailyCheckin` (bot.ts lines 613-688): under the same hypotheses it
is gated by the same civil-day comparison, and on success it increments
the balance and sets `lastDailyReward` to now but leaves the streak
unchanged — the handler calls `awardReward` and then only updates
`lastDailyReward`; no streak write appears in its source. -/
theorem handleDailyCheckin_boundary (st : Storage) (tid : String) (u : User)
    (amount now last : Int)
    (huser : getUserByTelegramId st tid = some u)
    (hlast : u.lastDailyReward = some last)
    (hle : last ≤ now) :
    ((handleDailyCheckin st tid u amount now).2 = false ↔
      pstCivilDay last = pstCivilDay now) ∧
    (pstCivilDay last ≠ pstCivilDay now →
      (handleDailyCheckin st tid u amount now).2 = true ∧
      getUserByTelegramId (handleDailyCheckin st tid u amount now).1 tid =
        some { u with
          coins := u.coins + amount, streak := u.streak,
          lastDailyReward := some now }) := by
  have hmono : pstCivilDay last ≤ pstCivilDay now := pstCivilDay_mono hle
  by_cases heq : pstCivilDay last = pstCivilDay now
  · have hcc : canClaimDailyReward u.lastDailyReward now = false := by
      rw [hlast]
      unfold canClaimDailyReward
      simp [heq]
    have hres : handleDailyCheckin st tid u amount now = (st, false) := by
      unfold handleDailyCheckin
      rw [hcc]
      simp
    refine ⟨by simp [hres, heq], fun hne => absurd heq hne⟩
  · have hlt : pstCivilDay last < pstCivilDay now := lt_of_le_of_ne hmono heq
    have hcc : canClaimDailyReward u.lastDailyReward now = true := by
      rw [hlast]
      unfold canClaimDailyReward
      simp [hlt]
    have hres : handleDailyCheckin st tid u amount now =
        (updateUser (awardReward st tid amount .daily_reward "Daily login reward") tid
          (fun v => { v with lastDailyReward := some now }), true) := by
      unfold handleDailyCheckin
      rw [hcc]
      simp
    refine ⟨by simp [hres, heq], fun _ => ⟨by simp [hres], ?_⟩⟩
    rw [hres]
    dsimp only
    rw [getUser_updateUser _ tid
      (fun v => { v with lastDailyReward := some now }) (fun v => rfl)]
    unfold awardReward
    rw [huser]
    rw [getUser_createTransaction, getUser_updateUser _ tid
      (fun v => { v with coins := v.coins + amount }) (fun v => rfl), huser]
    rfl

/-- C3, counterexample.  An eligible daily check-in through the claim's
cited handler `handleDailyCheckin` succeeds (last claim at the epoch, now
two civil days later) yet leaves the streak at 0: the resulting row is
coins 1, streak 0, lastDailyReward updated — so the claimed "increments
streak" is false on this path, whose streak would have to be
`dailyUser.streak + 1 = 1`. -/
theorem C3_counterexample_streak_not_incremented :
    (handleDailyCheckin stDaily "n1" dailyUser 1 (2 * 86400000)).2 = true ∧
    (getUserByTelegramId
        (handleDailyCheckin stDaily "n1" dailyUser 1 (2 * 86400000)).1 "n1").map
      (fun v => (v.coins, v.streak, v.lastDailyReward)) =
      some (1, 0, some (2 * 86400000)) ∧
    (0 : Int) ≠ dailyUser.streak + 1 := by
  refine ⟨rfl, rfl, by decide⟩

/-- C3, amended.  A daily claim is rejected exactly when the last-claim
timestamp, normalized to the fixed UTC-minus-8 civil day, equals today's
normalized civil day (given `last ≤ now`, which holds for every timestamp
the code stores); otherwise it succeeds, increments coins by the
configured daily amount and sets `lastDailyReward` to now — but the
streak is incremented only on the /daily command path (the spec-modelled
`storage.claimDaily`), while the button-callback path
`handleDailyCheckin` leaves the streak unchanged. -/
theorem C3_daily_claim_boundary_amended (st : Storage) (tid : String) (u : User)
    (amount now last : Int)
    (huser : getUserByTelegramId st tid = some u)
    (hlast : u.lastDailyReward = some last)
    (hle : last ≤ now) :
    (((handleDailyCheckin st tid u amount now).2 = false ↔
        pstCivilDay last = pstCivilDay now) ∧
      (pstCivilDay last ≠ pstCivilDay now →
        (handleDailyCheckin st tid u amount now).2 = true ∧
        getUserByTelegramId (handleDailyCheckin st tid u amount now).1 tid =
          some { u with
            coins := u.coins + amount, streak := u.streak,
            lastDailyReward := some now })) ∧
    (((dailyCommand st tid amount now).2 = .alreadyClaimed ↔
        pstCivilDay last = pstCivilDay now) ∧
      (pstCivilDay last ≠ pstCivilDay now →
        (dailyCommand st tid amount now).2 = .claimed ∧
        getUserByTelegramId (dailyCommand st tid amount now).1 tid =
          some { u with
            coins := u.coins + amount, streak := u.streak + 1,
            lastDailyReward := some now })) :=
  ⟨handleDailyCheckin_boundary st tid u amount now last huser hlast hle,
   dailyCommand_boundary st tid u amount now last huser hlast hle⟩

/-- Witness for C3's amended statement at a concrete state: the last claim
at the epoch, now two civil days later, so both paths succeed — the
callback path with the streak left at its old value, the /daily path with
the streak incremented. -/
theorem C3_daily_claim_boundary_amended_witness :
    ((((handleDailyCheckin stDaily "n1" dailyUser 1 (2 * 86400000)).2 = false ↔
        pstCivilDay 0 = pstCivilDay (2 * 86400000)) ∧
      (pstCivilDay 0 ≠ pstCivilDay (2 * 86400000) →
        (handleDailyCheckin stDaily "n1" dailyUser 1 (2 * 86400000)).2 = true ∧
        getUserByTelegramId
            (handleDailyCheckin stDaily "n1" dailyUser 1 (2 * 86400000)).1 "n1" =
          some { dailyUser with
            coins := dailyUser.coins + 1, streak := dailyUser.streak,
            lastDailyReward := some (2 * 86400000) })) ∧
    (((dailyCommand stDaily "n1" 1 (2 * 86400000)).2 = .alreadyClaimed ↔
        pstCivilDay 0 = pstCivilDay (2 * 86400000)) ∧
      (pstCivilDay 0 ≠ pstCivilDay (2 * 86400000) →
        (dailyCommand stDaily "n1" 1 (2 * 86400000)).2 = .claimed ∧
        getUserByTelegramId (dailyCommand stDaily "n1" 1 (2 * 86400000)).1 "n1" =
          some { dailyUser with
            coins := dailyUser.coins + 1, streak := dailyUser.streak + 1,
            lastDailyReward := some (2 * 86400000) }))) :=
  C3_daily_claim_boundary_amended stDaily "n1" dailyUser 1 (2 * 86400000) 0
    rfl rfl (by norm_num)

/-- C5, amended.  When the selected item's tracked stock is depleted the
purchase always fails and leaves the storage untouched — no debit,
Purchase record, stock change or Transaction — but the failure reported is
`InsufficientBalance` when the user's captured balance is below the cost
(the balance check runs first), and `OutOfStock` otherwise. -/
theorem C5_out_of_stock_rejection (st : Storage) (tid : String) (user : User)
    (itemId : Nat) (item : ShopItem)
    (hfind : (getAllShopItems st).find? (fun i => i.id == itemId) = some item)
    (hstock : stockDepleted item.stock = true) :
    (handleShopPurchase st tid user itemId).1 = st ∧
    (handleShopPurchase st tid user itemId).2 =
      (if user.coins < item.cost then .insufficientBalance else .outOfStock) := by
  unfold handleShopPurchase
  rw [hfind]
  dsimp only
  by_cases h : user.coins < item.cost
  · rw [if_pos h, if_pos h]
    exact ⟨rfl, rfl⟩
  · rw [if_neg h, if_neg h, if_pos hstock]
    exact ⟨rfl, rfl⟩

/-- Witness for C5's amended statement at the sold-out fixture: item 7 is
found, its stock is depleted, and the broke user's request is rejected
without any storage change. -/
theorem C5_out_of_stock_rejection_witness :
    (handleShopPurchase stSoldOut "n1" brokeUser 7).1 = stSoldOut ∧
    (handleShopPurchase stSoldOut "n1" brokeUser 7).2 =
      (if brokeUser.coins < soldOutItem.cost then .insufficientBalance else .outOfStock) :=
  C5_out_of_stock_rejection stSoldOut "n1" brokeUser 7 soldOutItem rfl rfl

/-! ### C8 -/

/-- Deleting a key from the conversation map makes lookups of that key
miss. -/
theorem statesGet_statesDelete (states : UserStates) (tid : String) :
    statesGet (statesDelete states tid) tid = none := by
  unfold statesGet statesDelete
  induction states with
  | nil => rfl
  | cons p rest ih =>
      by_cases h : p.1 = tid
      · rw [List.filter_cons, if_neg (by simp [h])]
        exact ih
      · rw [List.filter_cons, if_pos (by simp [h]),
          List.find?_cons_of_neg _ (by simp [h])]
        exact ih

/-- C8.  A pending `expecting_invite_code` conversation state is consumed
on the user's next non-command text message — the handler deletes it
before the code lookup, so the deletion happens whether the lookup
succeeds or fails; a slash-command message leaves the map untouched
because the handler returns before reading it; and the back-to-menu
callback clears the state explicitly. -/
theorem C8_invite_state_consumed (st : Storage) (states : UserStates)
    (tid text : String) (e : UserStateEntry) (user : User) (reward : Int)
    (hstate : statesGet states tid = some e)
    (htag : e.state = "expecting_invite_code")
    (huser : getUserByTelegramId st tid = some user) :
    (isCommandOrEmpty text = false →
      statesGet (handleMessage st states tid text reward).states tid = none) ∧
    (isCommandOrEmpty text = true →
      (handleMessage st states tid text reward).states = states) ∧
    statesGet (handleBackToMenu states tid) tid = none := by
  refine ⟨?_, ?_, statesGet_statesDelete states tid⟩
  · intro hcmd
    unfold handleMessage
    rw [if_neg (by simp [hcmd])]
    rw [huser]
    dsimp only
    rw [hstate]
    dsimp only
    rw [if_pos (by simp [htag])]
    cases getUserByReferralCode st (normalizeInviteInput text) with
    | none => exact statesGet_statesDelete states tid
    | some codeOwner =>
        dsimp only
        split
        · exact statesGet_statesDelete states tid
        · split
          · exact statesGet_statesDelete states tid
          · exact statesGet_statesDelete states tid
  · intro hcmd
    unfold handleMessage
    rw [if_pos (by simp [hcmd])]

/-- Witness for C8: a concrete armed state for user `n1`, consumed by the
non-command text "hello" (an invalid code), left alone by the command
"/start", and cleared by back-to-menu. -/
theorem C8_invite_state_consumed_witness :
    (isCommandOrEmpty "hello" = false →
      statesGet (handleMessage stReferrerOnly
        (handleEnterCode [] "r1" 0) "r1" "hello" 5).states "r1" = none) ∧
    (isCommandOrEmpty "hello" = true →
      (handleMessage stReferrerOnly
        (handleEnterCode [] "r1" 0) "r1" "hello" 5).states = handleEnterCode [] "r1" 0) ∧
    statesGet (handleBackToMenu (handleEnterCode [] "r1" 0) "r1") "r1" = none :=
  C8_invite_state_consumed stReferrerOnly (handleEnterCode [] "r1" 0) "r1" "hello"
    { state := "expecting_invite_code", timestamp := 0 } referrerR 5 rfl rfl rfl

/-! ### C9 -/

theorem broadcastRun_counts (ok : String → Bool) (l : List String) :
    (broadcastRun ok l).success + (broadcastRun ok l).failed = l.length := by
  induction l with
  | nil => rfl
  | cons tid rest ih =>
      unfold broadcastRun
      by_cases h : ok tid <;> simp [h] <;> omega

theorem broadcastRun_attempts (ok : String → Bool) (l : List String) :
    ∀ tid ∈ l, BEvent.sent tid ∈ (broadcastRun ok l).events ∨
      BEvent.sendFailed tid ∈ (broadcastRun ok l).events := by
  induction l with
  | nil => intro tid h; cases h
  | cons t rest ih =>
      intro tid hmem
      unfold broadcastRun
      rcases List.mem_cons.1 hmem with h | h
      · subst h
        by_cases hok : ok tid <;> simp [hok]
      · by_cases hok : ok t <;> simp [hok] <;> rcases ih tid h with h2 | h2 <;> simp [h2]

theorem broadcastRun_delays (ok : String → Bool) (l : List String) :
    ∀ ms, BEvent.delayMs ms ∈ (broadcastRun ok l).events → ms = 50 := by
  induction l with
  | nil => intro ms h; cases h
  | cons t rest ih =>
      intro ms hmem
      unfold broadcastRun at hmem
      by_cases hok : ok t <;> simp [hok] at hmem
      · rcases hmem with h | h
        · exact h
        · exact ih ms h
      · exact ih ms hmem

theorem broadcastRun_paced (ok : String → Bool) (l : List String) :
    paced (broadcastRun ok l).events = true := by
  induction l with
  | nil => rfl
  | cons t rest ih =>
      unfold broadcastRun
      by_cases hok : ok t <;> simp [hok, paced, ih]

/-- C9.  A broadcast walks the active users in order; each successful send
is immediately followed by the bounded 50 ms pacing delay; a per-recipient
failure is caught and counted without aborting the batch, so every active
user still gets a send attempt; and the returned counters always satisfy
success + failed = number of active users. -/
theorem C9_broadcast_throttled_and_counted (st : Storage) (ok : String → Bool) :
    (broadcastMessage st ok).success + (broadcastMessage st ok).failed =
      (getActiveUsers st).length ∧
    (∀ u ∈ getActiveUsers st,
      BEvent.sent u.telegramId ∈ (broadcastMessage st ok).events ∨
      BEvent.sendFailed u.telegramId ∈ (broadcastMessage st ok).events) ∧
    (∀ ms, BEvent.delayMs ms ∈ (broadcastMessage st ok).events → ms = 50) ∧
    paced (broadcastMessage st ok).events = true := by
  refine ⟨?_, ?_, ?_, ?_⟩
  · rw [broadcastMessage, broadcastRun_counts, List.length_map]
  · intro u hu
    exact broadcastRun_attempts ok _ u.telegramId (List.mem_map_of_mem _ hu)
  · exact broadcastRun_delays ok _
  · exact broadcastRun_paced ok _

/-- Database for the C9 witness: two active users. -/
def stBroadcast : Storage := { initialStorage with users := [referrerR, brokeUser] }

/-- Witness for C9 at a concrete run where the transport accepts the send
to `r1` and rejects the send to `n1`. -/
theorem C9_broadcast_throttled_and_counted_witness :
    (broadcastMessage stBroadcast (fun tid => tid == "r1")).success +
      (broadcastMessage stBroadcast (fun tid => tid == "r1")).failed =
      (getActiveUsers stBroadcast).length ∧
    (∀ u ∈ getActiveUsers stBroadcast,
      BEvent.sent u.telegramId ∈
        (broadcastMessage stBroadcast (fun tid => tid == "r1")).events ∨
      BEvent.sendFailed u.telegramId ∈
        (broadcastMessage stBroadcast (fun tid => tid == "r1")).events) ∧
    (∀ ms, BEvent.delayMs ms ∈
        (broadcastMessage stBroadcast (fun tid => tid == "r1")).events → ms = 50) ∧
    paced (broadcastMessage stBroadcast (fun tid => tid == "r1")).events = true :=
  C9_broadcast_throttled_and_counted stBroadcast (fun tid => tid == "r1")

/-! ### C10: character and trim lemmas -/

theorem toNat_ofNat_valid (n : Nat) (h : n < 55296) : (Char.ofNat n).toNat = n := by
  unfold Char.ofNat
  rw [dif_pos (Or.inl h)]
  rfl

theorem char_eq_of_toNat_eq {c d : Char} (h : c.toNat = d.toNat) : c = d := by
  rw [← Char.ofNat_toNat c, ← Char.ofNat_toNat d, h]

theorem toNat_jsCharUpper (c : Char) :
    (jsCharUpper c).toNat =
      if 97 ≤ c.toNat ∧ c.toNat ≤ 122 then c.toNat - 32 else c.toNat := by
  unfold jsCharUpper
  by_cases h : 97 ≤ c.toNat ∧ c.toNat ≤ 122
  · rw [if_pos (by simp [h.1, h.2]), if_pos h]
    exact toNat_ofNat_valid _ (by omega)
  · rw [if_neg (by simpa using h), if_neg h]

theorem jsCharUpper_idem (c : Char) : jsCharUpper (jsCharUpper c) = jsCharUpper c := by
  apply char_eq_of_toNat_eq
  rw [toNat_jsCharUpper, toNat_jsCharUpper]
  split_ifs <;> omega

theorem nanoid_upper_not_ws {c : Char} (h : nanoidAlphabetChar c = true) :
    isJsWhitespace (jsCharUpper c) = false := by
  unfold nanoidAlphabetChar at h
  unfold isJsWhitespace
  rw [toNat_jsCharUpper]
  simp only [Bool.or_eq_true, Bool.and_eq_true, decide_eq_true_eq, beq_iff_eq] at h
  simp only [Bool.or_eq_false_iff, Bool.and_eq_false_iff, decide_eq_false_iff_not, beq_eq_false_iff_ne]
  split_ifs <;> omega

theorem ws_jsCharUpper_self {c : Char} (h : isJsWhitespace c = true) : jsCharUpper c = c := by
  unfold isJsWhitespace at h
  simp only [Bool.or_eq_true, Bool.and_eq_true, decide_eq_true_eq, beq_iff_eq] at h
  unfold jsCharUpper
  rw [if_neg (by simp only [Bool.and_eq_true, decide_eq_true_eq]; omega)]

theorem dropWhile_append_of_all {p : Char → Bool} {w : List Char} (l : List Char)
    (h : ∀ c ∈ w, p c = true) : (w ++ l).dropWhile p = l.dropWhile p := by
  induction w with
  | nil => rfl
  | cons c cs ih =>
      rw [List.cons_append, List.dropWhile_cons, if_pos (h c (List.mem_cons_self c cs))]
      exact ih (fun d hd => h d (List.mem_cons_of_mem c hd))

theorem dropWhile_eq_self_of_all {p : Char → Bool} {l : List Char}
    (h : ∀ c ∈ l, p c = false) : l.dropWhile p = l := by
  cases l with
  | nil => rfl
  | cons c cs =>
      rw [List.dropWhile_cons, if_neg (by simp [h c (List.mem_cons_self c cs)])]

/-- Trimming a string of whitespace-wrapped non-whitespace text yields the
inner text. -/
theorem jsTrim_sandwich (s : String) (w1 mid w2 : List Char)
    (hs : s.data = w1 ++ mid ++ w2) (hmid : mid ≠ [])
    (hm : ∀ c ∈ mid, isJsWhitespace c = false)
    (h1 : ∀ c ∈ w1, isJsWhitespace c = true)
    (h2 : ∀ c ∈ w2, isJsWhitespace c = true) :
    jsTrim s = ⟨mid⟩ := by
  unfold jsTrim
  rw [hs]
  have step1 : ((w1 ++ mid ++ w2).dropWhile isJsWhitespace) = mid ++ w2 := by
    rw [List.append_assoc, dropWhile_append_of_all _ h1]
    cases mid with
    | nil => exact absurd rfl hmid
    | cons c cs =>
        rw [List.cons_append, List.dropWhile_cons,
          if_neg (by simp [hm c (List.mem_cons_self c cs)])]
  rw [step1, List.reverse_append,
    dropWhile_append_of_all _ (fun c hc => h2 c (List.mem_reverse.1 hc)),
    dropWhile_eq_self_of_all (fun c hc => hm c (List.mem_reverse.1 hc)),
    List.reverse_reverse]

/-- C10.  A generated referral code is an 8-character uppercase-invariant
string, and the invitation-code normalization (`text.trim().toUpperCase()`)
maps any case variant of the code, wrapped in arbitrary surrounding
whitespace, back to the stored code — so the lookup resolves to the same
owner. -/
theorem C10_invite_code_normalization (st : Storage) (owner : User)
    (raw v w1 w2 : String)
    (hlen : raw.data.length = 8)
    (halpha : ∀ c ∈ raw.data, nanoidAlphabetChar c = true)
    (hw1 : ∀ c ∈ w1.data, isJsWhitespace c = true)
    (hw2 : ∀ c ∈ w2.data, isJsWhitespace c = true)
    (hvar : jsToUpper v = generateReferralCode raw)
    (howner : getUserByReferralCode st (generateReferralCode raw) = some owner) :
    (generateReferralCode raw).data.length = 8 ∧
    jsToUpper (generateReferralCode raw) = generateReferralCode raw ∧
    getUserByReferralCode st (normalizeInviteInput (w1 ++ v ++ w2)) = some owner := by
  have hvdata : v.data.map jsCharUpper = raw.data.map jsCharUpper := congrArg String.data hvar
  refine ⟨?_, ?_, ?_⟩
  · show (raw.data.map jsCharUpper).length = 8
    rw [List.length_map, hlen]
  · show (⟨(raw.data.map jsCharUpper).map jsCharUpper⟩ : String) = ⟨raw.data.map jsCharUpper⟩
    rw [List.map_map]
    exact congrArg String.mk (List.map_congr_left (fun c _ => jsCharUpper_idem c))
  · have hvne : v.data ≠ [] := by
      intro h
      have := congrArg List.length hvdata
      rw [h, List.length_map, List.length_map, hlen] at this
      simp at this
    have hvnws : ∀ c ∈ v.data, isJsWhitespace c = false := by
      intro c hc
      by_contra hws
      have hws' : isJsWhitespace c = true := by
        cases h : isJsWhitespace c with
        | true => rfl
        | false => exact absurd h hws
      have hmem : jsCharUpper c ∈ raw.data.map jsCharUpper := by
        rw [← hvdata]
        exact List.mem_map_of_mem _ hc
      rcases List.mem_map.1 hmem with ⟨a, ha, haeq⟩
      have hanws : isJsWhitespace (jsCharUpper a) = false := nanoid_upper_not_ws (halpha a ha)
      rw [haeq, ws_jsCharUpper_self hws'] at hanws
      rw [hws'] at hanws
      cases hanws
    have htrim : jsTrim (w1 ++ v ++ w2) = ⟨v.data⟩ := by
      refine jsTrim_sandwich _ w1.data v.data w2.data ?_ hvne hvnws hw1 hw2
      rw [String.data_append, String.data_append]
    unfold normalizeInviteInput
    rw [htrim]
    have : jsToUpper ⟨v.data⟩ = generateReferralCode raw := hvar
    rw [this]
    exact howner

/-- Owner fixture for the C10 witness, holding the code generated from
the nanoid output `ab3-_XY9`. -/
def codeOwnerUser : User :=
  { id := 4, telegramId := "o1", username := none, firstName := none,
    lastName := none, referralCode := generateReferralCode "ab3-_XY9",
    referredBy := none, coins := 0, streak := 0, lastDailyReward := none,
    isActive := true }

/-- Database holding only the code owner. -/
def stCodeOwner : Storage := { initialStorage with users := [codeOwnerUser] }

/-- Witness for C10: the lower-case variant `ab3-_xy9` of the stored code
`AB3-_XY9`, wrapped in a space and a tab, still resolves to the owner. -/
theorem C10_invite_code_normalization_witness :
    (generateReferralCode "ab3-_XY9").data.length = 8 ∧
    jsToUpper (generateReferralCode "ab3-_XY9") = generateReferralCode "ab3-_XY9" ∧
    getUserByReferralCode stCodeOwner
      (normalizeInviteInput (" " ++ "ab3-_xy9" ++ "\t")) = some codeOwnerUser :=
  C10_invite_code_normalization stCodeOwner codeOwnerUser "ab3-_XY9" "ab3-_xy9"
    " " "\t" rfl (by decide) (by decide) (by decide) (by decide) (by decide)

/-! ### C7: bare-number routing -/

theorem digit_toNat_bounds {c : Char} (h : c.isDigit = true) :
    48 ≤ c.toNat ∧ c.toNat ≤ 57 := by
  simpa [Char.isDigit] using h

theorem digit_not_ws {c : Char} (h : c.isDigit = true) : isJsWhitespace c = false := by
  have hb := digit_toNat_bounds h
  unfold isJsWhitespace
  simp only [Bool.or_eq_false_iff, Bool.and_eq_false_iff, decide_eq_false_iff_not,
    beq_eq_false_iff_ne]
  omega

theorem digit_ne_of_toNat {c d : Char} (h : c.isDigit = true)
    (hd : d.toNat < 48 ∨ 57 < d.toNat) : c ≠ d := by
  intro heq
  have hb := digit_toNat_bounds h
  rw [heq] at hb
  omega

/-- Trimming all-digit text is the identity. -/
theorem jsTrim_digits {text : String} (hdig : ∀ c ∈ text.data, c.isDigit = true) :
    jsTrim text = text := by
  unfold jsTrim
  rw [dropWhile_eq_self_of_all (fun c hc => digit_not_ws (hdig c hc)),
    dropWhile_eq_self_of_all (fun c hc => digit_not_ws (hdig c (List.mem_reverse.1 hc))),
    List.reverse_reverse]

/-- Parsing nonempty all-digit text yields its decimal value. -/
theorem jsParseInt_digits {text : String} (hne : text.data ≠ [])
    (hdig : ∀ c ∈ text.data, c.isDigit = true) :
    jsParseInt text = some (digitsVal text.data : Int) := by
  obtain ⟨c, rest, hdata⟩ : ∃ c rest, text.data = c :: rest := by
    cases h : text.data with
    | nil => exact absurd h hne
    | cons c rest => exact ⟨c, rest, rfl⟩
  have hc : c.isDigit = true := hdig c (by rw [hdata]; exact List.mem_cons_self c rest)
  have hneg : (text.data.head? == some '-') = false := by
    rw [hdata]
    simp only [List.head?_cons, beq_eq_false_iff_ne, ne_eq, Option.some.injEq]
    exact digit_ne_of_toNat hc (by left; decide)
  have hplus : (text.data.head? == some '+') = false := by
    rw [hdata]
    simp only [List.head?_cons, beq_eq_false_iff_ne, ne_eq, Option.some.injEq]
    exact digit_ne_of_toNat hc (by left; decide)
  have htake : text.data.takeWhile (fun c => c.isDigit) = text.data :=
    List.takeWhile_eq_self_iff.2 hdig
  unfold jsParseInt
  rw [hneg, hplus]
  rw [hdata] at htake
  simp [htake, List.isEmpty_iff, hdata, hc]

/-- All-digit text is not a command. -/
theorem isCommandOrEmpty_digits {text : String} (hne : text.data ≠ [])
    (hdig : ∀ c ∈ text.data, c.isDigit = true) :
    isCommandOrEmpty text = false := by
  obtain ⟨c, rest, hdata⟩ : ∃ c rest, text.data = c :: rest := by
    cases h : text.data with
    | nil => exact absurd h hne
    | cons c rest => exact ⟨c, rest, rfl⟩
  have hc : c.isDigit = true := hdig c (by rw [hdata]; exact List.mem_cons_self c rest)
  unfold isCommandOrEmpty
  rw [hdata]
  simp only [beq_eq_false_iff_ne, ne_eq]
  exact digit_ne_of_toNat hc (by left; decide)

/-- C7.  A bare-integer message of value `n`, sent with no pending
conversation state, is routed first as a 1-based index into the active
raffles (yielding a raffle engine call or the insufficient-coins reply),
then — when past that range — as the same index into the active shop items,
and is silently ignored with no storage change, no state change and no
reply when it is out of range of both lists (in particular always when
both lists are empty). -/
theorem C7_bare_number_routing (st : Storage) (states : UserStates)
    (tid text : String) (user : User) (reward : Int) (n : Int)
    (huser : getUserByTelegramId st tid = some user)
    (hstate : statesGet states tid = none)
    (hne : text.data ≠ [])
    (hdig : ∀ c ∈ text.data, c.isDigit = true)
    (hn : n = (digitsVal text.data : Int)) :
    (∀ r, 0 < n → (getActiveRaffles st)[(n - 1).toNat]? = some r →
      (handleMessage st states tid text reward).outcome = .raffleInsufficient r ∨
      (handleMessage st states tid text reward).outcome = .raffleEntered r) ∧
    (∀ i, ((getActiveRaffles st).length : Int) < n →
      (getActiveShopItems st)[(n - 1).toNat]? = some i →
      (handleMessage st states tid text reward).outcome = .shopInsufficient i ∨
      (handleMessage st states tid text reward).outcome = .shopOutOfStock i ∨
      (handleMessage st states tid text reward).outcome = .shopPurchased i) ∧
    ((n = 0 ∨ (((getActiveRaffles st).length : Int) < n ∧
        ((getActiveShopItems st).length : Int) < n)) →
      (handleMessage st states tid text reward).st = st ∧
      (handleMessage st states tid text reward).states = states ∧
      (handleMessage st states tid text reward).outcome = .numberIgnored) := by
  have hnn : 0 ≤ n := by rw [hn]; exact Int.ofNat_nonneg _
  have hred : handleMessage st states tid text reward =
      numberSelection st states tid user text := by
    unfold handleMessage
    rw [if_neg (by simp [isCommandOrEmpty_digits hne hdig]), huser]
    dsimp only
    rw [hstate]
  have hparse : jsParseInt (jsTrim text) = some n := by
    rw [jsTrim_digits hdig, jsParseInt_digits hne hdig, hn]
  refine ⟨?_, ?_, ?_⟩
  · intro r hpos hget
    have hlt : (n - 1).toNat < (getActiveRaffles st).length :=
      (List.getElem?_eq_some.1 hget).1
    rw [hred]
    unfold numberSelection
    rw [hparse]
    dsimp only
    rw [if_pos ⟨hpos, by omega⟩, hget]
    dsimp only
    by_cases hcoins : user.coins < r.entryCost
    · left; rw [if_pos hcoins]
    · right; rw [if_neg hcoins]
  · intro i hgt hget
    have hlt : (n - 1).toNat < (getActiveShopItems st).length :=
      (List.getElem?_eq_some.1 hget).1
    rw [hred]
    unfold numberSelection
    rw [hparse]
    dsimp only
    rw [if_neg (by omega), if_pos ⟨by omega, by omega⟩, hget]
    dsimp only
    by_cases hcoins : user.coins < i.cost
    · left; rw [if_pos hcoins]
    · right
      by_cases hstock : stockDepleted i.stock = true
      · left; rw [if_neg hcoins, if_pos hstock]
      · right; rw [if_neg hcoins, if_neg hstock]
  · intro hout
    have hr : ¬(0 < n ∧ n ≤ ((getActiveRaffles st).length : Int)) := by
      rcases hout with h | h
      · omega
      · omega
    have hs : ¬(0 < n ∧ n ≤ ((getActiveShopItems st).length : Int)) := by
      rcases hout with h | h
      · omega
      · omega
    rw [hred]
    unfold numberSelection
    rw [hparse]
    dsimp only
    rw [if_neg hr, if_neg hs]
    exact ⟨rfl, rfl, rfl⟩

/-- Database for the C7 witness: one open raffle and one shop item, so the
bare number 5 is out of range of both lists. -/
def stRouting : Storage :=
  { initialStorage with
    users := [fiveCoinUser],
    raffles := [{ closedRaffle with isActive := true, entryCost := 2 }],
    shopItems := [itemCost5] }

/-- Witness for C7 at the message "5": with one active raffle and one
active shop item the number is out of range of both lists, so the message
is silently dropped. -/
theorem C7_bare_number_routing_witness :
    (∀ r, 0 < (5 : Int) → (getActiveRaffles stRouting)[((5 : Int) - 1).toNat]? = some r →
      (handleMessage stRouting [] "n1" "5" 1).outcome = .raffleInsufficient r ∨
      (handleMessage stRouting [] "n1" "5" 1).outcome = .raffleEntered r) ∧
    (∀ i, ((getActiveRaffles stRouting).length : Int) < 5 →
      (getActiveShopItems stRouting)[((5 : Int) - 1).toNat]? = some i →
      (handleMessage stRouting [] "n1" "5" 1).outcome = .shopInsufficient i ∨
      (handleMessage stRouting [] "n1" "5" 1).outcome = .shopOutOfStock i ∨
      (handleMessage stRouting [] "n1" "5" 1).outcome = .shopPurchased i) ∧
    (((5 : Int) = 0 ∨ (((getActiveRaffles stRouting).length : Int) < 5 ∧
        ((getActiveShopItems stRouting).length : Int) < 5)) →
      (handleMessage stRouting [] "n1" "5" 1).st = stRouting ∧
      (handleMessage stRouting [] "n1" "5" 1).states = [] ∧
      (handleMessage stRouting [] "n1" "5" 1).outcome = .numberIgnored) :=
  C7_bare_number_routing stRouting [] "n1" "5" fiveCoinUser 1 5 rfl rfl
    (by decide) (by decide) (by decide)

end Telebot
